import Mathlib

/-!
# GithubSearch: the search component of `src/App.jsx`

A shallow embedding of the three pieces of logic of the component:

* the client-side pagination (`start`, `end`, `currentResults`, the `pageCount`
  prop and the render condition of the pagination control);
* `retryWithBackoff`, the bounded retry loop with its delay schedule;
* `fetchUsers`, the request with its status classification and its updates of
  the component state, and the way both call sites wire it into
  `retryWithBackoff`.

JavaScript numbers are natural numbers here: every number the component
computes is a non-negative integer (an array length, a page index, an attempt
index, a delay in milliseconds, an HTTP status code), and on such values
`Math.ceil (a / b)`, `Math.pow (2, i)` and the products are exact as long as
they stay in the exactly representable range of a double.
-/

namespace GithubSearch

universe u

/-! ## Data model -/

/-- One entry of the `items` array of the search payload, with the fields the
component renders (lines 79-82). -/
structure User where
  id : Nat
  login : String
  avatar_url : String
  html_url : String
deriving DecidableEq

/-- The `status` state variable (line 7): idle | loading | success | error. -/
inductive Status where
  | idle
  | loading
  | success
  | error
deriving DecidableEq

/-- The five `useState` cells of the component (lines 6-11). -/
structure AppState where
  query : String
  status : Status
  error : Option String
  results : List User
  currentPage : Nat
deriving DecidableEq

/-- The initial values passed to `useState` (lines 6-11). -/
def AppState.initial : AppState :=
  { query := "", status := Status.idle, error := none, results := [], currentPage := 0 }

/-! ## Pagination (lines 12-16, 89, 92) -/

/-- Line 12: `const itemsPerPage = 10`. -/
def itemsPerPage : Nat := 10

/-- `Array.prototype.slice (start, end)` for non-negative integer bounds: the
elements with index `start <= i < min (end, length)`; both bounds are clamped to
the length, and the result is empty when `start` is not below the clamped
`end`. It is total: no bounds raise an error. -/
def slice {α : Type u} (xs : List α) (start stop : Nat) : List α :=
  (xs.take stop).drop start

/-- Lines 14-16 with the page size as a parameter:
`start = p * k`, `end = start + k`, `items.slice (start, end)`. -/
def pageSlice {α : Type u} (items : List α) (p k : Nat) : List α :=
  let start := p * k
  let stop := start + k
  slice items start stop

/-- Lines 14-16: the slice of `results` the component renders. -/
def currentResults (s : AppState) : List User :=
  pageSlice s.results s.currentPage itemsPerPage

/-- The `pageCount` prop (line 92), `Math.ceil (length / itemsPerPage)`, with the
page size as a parameter; the ceiling of the quotient of two naturals is
computed in integer arithmetic (see `pageCount_eq_ceil`). -/
def pageCount (length k : Nat) : Nat :=
  (length + k - 1) / k

/-- Line 89: the pagination control is rendered iff
`results.length > itemsPerPage`. -/
def paginationShown (results : List User) : Bool :=
  decide (results.length > itemsPerPage)

/-! ## `retryWithBackoff` (lines 19-31) -/

/-- What `retryWithBackoff` does that is visible from outside, in order: a call
of `fn`, or a `setTimeout` wait of `delay` milliseconds. -/
inductive Event where
  | invoke
  | sleep (delay : Nat)
deriving DecidableEq

/-- How the promise returned by `retryWithBackoff` settles: `return await fn ()`
resolves it with the value, `throw e` rejects it, and leaving the `for` loop
without either (the loop body never ran) resolves it with `undefined`. -/
inductive Settled (ε : Type u) (α : Type u) where
  | resolved (value : α)
  | resolvedUndefined
  | rejected (e : ε)
deriving DecidableEq

/-- An asynchronous zero-argument operation over a state `σ` it may read and
change: one invocation either yields a value or throws, and leaves a new
state. -/
abbrev Operation (ε α σ : Type u) := σ → Except ε α × σ

/-- A finished run of `retryWithBackoff`: how the promise settled, the state
the invocations of `fn` left, and the calls and waits in the order they
happened. -/
structure Run (ε α σ : Type u) where
  outcome : Settled ε α
  state : σ
  log : List Event

/-- The body of the `for` loop of lines 20-30, run for the remaining values of
`attempt`: `return await fn ()` on success; in the `catch`, `throw e` when
`attempt === maxRetries - 1`, otherwise wait `BaseDelay * Math.pow (2, attempt)`
and go on with the next value of `attempt`. -/
def retryLoop {ε α σ : Type u} (fn : Operation ε α σ) (maxRetries BaseDelay : Nat) :
    List Nat → σ → Run ε α σ
  | [], s => { outcome := Settled.resolvedUndefined, state := s, log := [] }
  | attempt :: rest, s =>
    match fn s with
    | (Except.ok v, s1) => { outcome := Settled.resolved v, state := s1, log := [Event.invoke] }
    | (Except.error e, s1) =>
      if attempt = maxRetries - 1 then
        { outcome := Settled.rejected e, state := s1, log := [Event.invoke] }
      else
        let delay := BaseDelay * 2 ^ attempt
        let r := retryLoop fn maxRetries BaseDelay rest s1
        { r with log := Event.invoke :: Event.sleep delay :: r.log }

/-- Lines 19-31: `for (let attempt = 0; attempt < maxRetries; attempt++)` runs
the loop body for `attempt = 0, 1, ..., maxRetries - 1`. -/
def retryWithBackoff {ε α σ : Type u} (fn : Operation ε α σ) (maxRetries BaseDelay : Nat)
    (s : σ) : Run ε α σ :=
  retryLoop fn maxRetries BaseDelay (List.range maxRetries) s

/-- The default of the parameter `maxRetries` (line 19). -/
def defaultMaxRetries : Nat := 5

/-- The default of the parameter `BaseDelay` (line 19). -/
def defaultBaseDelay : Nat := 1000

/-- The state in which invocation number `i` (zero-based) of `fn` starts, when
`fn` is invoked again and again from the state `s`. -/
def stateAfter {ε α σ : Type u} (fn : Operation ε α σ) : σ → Nat → σ
  | s, 0 => s
  | s, i + 1 => stateAfter fn (fn s).2 i

/-- The result of invocation number `i` (zero-based) of `fn` from the state
`s`. -/
def outcomeAt {ε α σ : Type u} (fn : Operation ε α σ) (s : σ) (i : Nat) : Except ε α :=
  (fn (stateAfter fn s i)).1

/-- The number of calls of `fn` in a log. -/
def invocations (log : List Event) : Nat :=
  log.count Event.invoke

/-- The waits of a log, in order. -/
def delays : List Event → List Nat
  | [] => []
  | Event.invoke :: rest => delays rest
  | Event.sleep d :: rest => d :: delays rest

/-- The log of `n` failed attempts with zero-based indices `a, a + 1, ...`, each
followed by its wait, and one last attempt that no wait follows. -/
def backoffLog (BaseDelay a n : Nat) : List Event :=
  (List.range' a n).flatMap (fun i => [Event.invoke, Event.sleep (BaseDelay * 2 ^ i)])
    ++ [Event.invoke]

/-- An operation over a call counter that throws the counter on its first two
invocations and yields 42 from the third on. -/
def flakyOperation : Operation Nat Nat Nat :=
  fun n => (if n < 2 then Except.error n else Except.ok 42, n + 1)

/-- An operation over a call counter that always throws, invocation number `i`
(one-based) throwing `i`. -/
def failingOperation : Operation Nat Nat Nat :=
  fun n => (Except.error (n + 1), n + 1)

/-! ## `fetchUsers` (lines 33-56) -/

/-- The parsed payload `data`, what `res.json ()` resolves to: `null`, or a
value whose `items` property is read at line 48, absent or, as the search
endpoint sends it, an array of users. An array is truthy, so
`data.items || []` is the array when the property is present and `[]` when it
is absent. -/
inductive Payload where
  | null
  | object (items : Option (List User))

/-- The message of the `TypeError` thrown by `data.items` at line 48 when
`data` is `null`. The wording is the engine's (this is the one of V8); nothing
proved here depends on it. -/
def nullItemsMessage : String := "Cannot read properties of null (reading \x27items\x27)"

/-- A response of `fetch`: its `status` code and what `res.json ()` settles to,
the parsed payload or the message of the parse error. -/
structure Response where
  status : Nat
  body : Except String Payload

/-- The `ok` getter of a Fetch response: true iff the status is in the range
200-299. -/
def Response.ok (res : Response) : Bool :=
  decide (200 ≤ res.status ∧ res.status ≤ 299)

/-- What `await fetch (url)` yields: a rejection with the message of the
transport error, or a response. -/
inductive FetchResult where
  | failed (message : String)
  | response (res : Response)

/-- Lines 39-45: the classification of the response, on the values of `res.ok`
and `res.status`; `Except.error m` is `throw new Error (m)`. -/
def checkStatus (ok : Bool) (status : Nat) : Except String Unit :=
  if !ok then Except.error ("HTTP error! status: " ++ toString status)
  else if status = 404 then Except.error "User not found"
  else if status = 500 then Except.error "Server error"
  else Except.ok ()

/-- Lines 34-36: the state updates of `fetchUsers` before the request is
awaited. -/
def fetchUsersBegin (s : AppState) : AppState :=
  { s with currentPage := 0, status := Status.loading, error := none }

/-- The `try` block of lines 38-48 up to `setResults`: the value handed to
`setResults`, or the message of the error that reaches the `catch`: the
rejection of `fetch`, the error thrown by the classification, the rejection of
`res.json ()`, or the `TypeError` of reading `items` of `null`. -/
def fetchUsersTry (reply : FetchResult) : Except String (List User) :=
  match reply with
  | FetchResult.failed message => Except.error message
  | FetchResult.response res =>
    match checkStatus res.ok res.status with
    | Except.error message => Except.error message
    | Except.ok () =>
      match res.body with
      | Except.error message => Except.error message
      | Except.ok Payload.null => Except.error nullItemsMessage
      | Except.ok (Payload.object items) => Except.ok (items.getD [])

/-- Lines 38-55 once the request has settled: `setResults` and
`setStatus ("success")`, or in the `catch` `setError (err.message)` and
`setStatus ("error")`. -/
def fetchUsersSettle (reply : FetchResult) (s : AppState) : AppState :=
  match fetchUsersTry reply with
  | Except.ok items => { s with results := items, status := Status.success }
  | Except.error message => { s with error := some message, status := Status.error }

/-- Lines 33-56: one call of `fetchUsers` whose request settles with `reply`,
with nothing else happening in between. The promise it returns always
resolves: every error is caught at line 51. -/
def fetchUsers (reply : FetchResult) (s : AppState) : AppState :=
  fetchUsersSettle reply (fetchUsersBegin s)

/-! ## The search as wired in the component (lines 66 and 69) -/

/-- The component together with the network: the component state and the
number of requests issued so far. -/
structure World where
  app : AppState
  requests : Nat
deriving DecidableEq

/-- The operation `() => fetchUsers (query)` handed to `retryWithBackoff`:
`network i` is what request number `i` settles to. One invocation issues one
request, and resolves (with `undefined`) whatever the request did, since
`fetchUsers` catches every error itself. -/
def searchOperation (network : Nat → FetchResult) : Operation String Unit World :=
  fun w =>
    (Except.ok (), { app := fetchUsers (network w.requests) w.app, requests := w.requests + 1 })

/-- Lines 66 and 69: `retryWithBackoff (() => fetchUsers (query))`, with the
default `maxRetries` and `BaseDelay`. -/
def search (network : Nat → FetchResult) (w : World) : Run String Unit World :=
  retryWithBackoff (searchOperation network) defaultMaxRetries defaultBaseDelay w

/-- A network on which every request gets the response 500. -/
def failingNetwork : Nat → FetchResult :=
  fun _ => FetchResult.response { status := 500, body := Except.ok (Payload.object none) }

/-! ## The component as a transition system -/

/-- What can happen to the component: a search begins (lines 34-36 run), the
request of a search in flight settles (lines 38-55 run), the user selects a
page of the pagination control (line 93). -/
inductive Action where
  | beginSearch
  | completeSearch (reply : FetchResult)
  | selectPage (selected : Nat)

/-- The component state and the number of searches in flight. -/
structure Sys where
  app : AppState
  pending : Nat
deriving DecidableEq

/-- The initial state: nothing searched yet. -/
def Sys.initial : Sys := { app := AppState.initial, pending := 0 }

/-- When an action can happen: a request settles only when a search is in
flight; a page is selected only when the control is rendered (line 89) and
offers it (`selected < pageCount`, line 92). -/
def enabled (st : Sys) : Action → Bool
  | Action.beginSearch => true
  | Action.completeSearch _ => decide (0 < st.pending)
  | Action.selectPage selected =>
    paginationShown st.app.results
      && decide (selected < pageCount st.app.results.length itemsPerPage)

/-- The effect of an action on the component. -/
def step (st : Sys) : Action → Sys
  | Action.beginSearch => { app := fetchUsersBegin st.app, pending := st.pending + 1 }
  | Action.completeSearch reply =>
    { app := fetchUsersSettle reply st.app, pending := st.pending - 1 }
  | Action.selectPage selected =>
    { app := { st.app with currentPage := selected }, pending := st.pending }

/-- The states the component can be in. -/
inductive Reachable : Sys → Prop where
  | init : Reachable Sys.initial
  | step (st : Sys) (a : Action) : Reachable st → enabled st a = true → Reachable (step st a)

/-- Runs a sequence of actions, each of which must be enabled. -/
def runActions : Sys → List Action → Option Sys
  | st, [] => some st
  | st, a :: rest => if enabled st a then runActions (step st a) rest else none

/-- The page index is a valid index into the page range of the results, or 0
when there are no results. -/
def pageValid (s : AppState) : Prop :=
  s.currentPage < pageCount s.results.length itemsPerPage
    ∨ (s.results = [] ∧ s.currentPage = 0)

instance (s : AppState) : Decidable (pageValid s) := by
  unfold pageValid
  infer_instance

/-- A list of `n` users, with ids `0, ..., n - 1`. -/
def sampleUsers (n : Nat) : List User :=
  (List.range n).map
    (fun i => { id := i, login := "user", avatar_url := "", html_url := "" })

/-- A successful response whose payload holds the given items. -/
def okReply (items : List User) : FetchResult :=
  FetchResult.response { status := 200, body := Except.ok (Payload.object (some items)) }

/-- A first search returns 11 users (two pages); a second search begins, the
user selects the second page of the results still on display, and the second
search then returns a single user. -/
def staleSelectionTrace : List Action :=
  [Action.beginSearch, Action.completeSearch (okReply (sampleUsers 11)),
    Action.beginSearch, Action.selectPage 1, Action.completeSearch (okReply (sampleUsers 1))]

/-- A response with status 200 whose payload holds three users. -/
def sampleResponse : Response :=
  { status := 200, body := Except.ok (Payload.object (some (sampleUsers 3))) }

/-- A response with status 404 and a payload without an `items` field. -/
def notFoundResponse : Response :=
  { status := 404, body := Except.ok (Payload.object none) }

/-- A response with status 200 whose body is the JSON text `null`. -/
def nullResponse : Response :=
  { status := 200, body := Except.ok Payload.null }

/-- Two searches are in flight at once: both begin, the request of one gets the
response 500, and the request of the other then succeeds with three users. -/
def overlappingTrace : List Action :=
  [Action.beginSearch, Action.beginSearch, Action.completeSearch (failingNetwork 0),
    Action.completeSearch (okReply (sampleUsers 3))]

/-- A state left by an earlier search: 11 results, second page selected. -/
def earlierState : AppState :=
  { query := "octo", status := Status.success, error := none, results := sampleUsers 11,
    currentPage := 1 }

/-! ## Pagination: lemmas -/

/-- The page count is the least number of pages of size `k` that hold `n`
items. -/
theorem pageCount_le_iff (n k m : Nat) (hk : 0 < k) : pageCount n k ≤ m ↔ n ≤ m * k := by
  unfold pageCount
  rw [← Nat.lt_succ_iff, Nat.div_lt_iff_lt_mul hk, Nat.succ_mul]
  omega

/-- The integer computation of `pageCount` is the ceiling of the rational
quotient, `Math.ceil (length / k)`. -/
theorem pageCount_eq_ceil (n k : Nat) (hk : 0 < k) :
    pageCount n k = ⌈(n : ℚ) / (k : ℚ)⌉₊ := by
  have hq : (0 : ℚ) < k := by exact_mod_cast hk
  apply le_antisymm
  · rw [pageCount_le_iff _ _ _ hk]
    have h := Nat.le_ceil ((n : ℚ) / (k : ℚ))
    rw [div_le_iff₀ hq] at h
    exact_mod_cast h
  · rw [Nat.ceil_le, div_le_iff₀ hq]
    have h := (pageCount_le_iff n k (pageCount n k) hk).1 le_rfl
    exact_mod_cast h

/-- A page is `k` items taken after the first `p * k` are dropped. -/
theorem pageSlice_eq_take_drop {α : Type u} (items : List α) (p k : Nat) :
    pageSlice items p k = (items.drop (p * k)).take k := by
  unfold pageSlice slice
  rw [List.drop_take]
  simp

/-- The length of a page. -/
theorem length_pageSlice {α : Type u} (items : List α) (p k : Nat) :
    (pageSlice items p k).length = min k (items.length - p * k) := by
  rw [pageSlice_eq_take_drop, List.length_take, List.length_drop]

/-- The first `m` pages together are the first `m * k` items. -/
theorem flatMap_pageSlice_range {α : Type u} (items : List α) (k m : Nat) :
    (List.range m).flatMap (fun p => pageSlice items p k) = items.take (m * k) := by
  induction m with
  | zero => simp
  | succ m ih =>
    rw [List.range_succ, List.flatMap_append, ih]
    simp only [List.flatMap_cons, List.flatMap_nil, List.append_nil]
    rw [pageSlice_eq_take_drop, Nat.succ_mul, List.take_add]

/-! ## Pagination: the claims -/

/-- C5: for every list and every page size `k >= 1`, with `pageCount` the
ceiling of `|items| / k` (0 for the empty list), every page `p < pageCount` has
at most `k` items, and the pages `0, ..., pageCount - 1` concatenated in order
are exactly `items`. -/
theorem pages_partition_items {α : Type u} (items : List α) (k : Nat) (hk : 1 ≤ k) :
    pageCount items.length k = ⌈(items.length : ℚ) / (k : ℚ)⌉₊
      ∧ pageCount ([] : List α).length k = 0
      ∧ (∀ p, p < pageCount items.length k → (pageSlice items p k).length ≤ k)
      ∧ (List.range (pageCount items.length k)).flatMap (fun p => pageSlice items p k)
          = items := by
  refine ⟨pageCount_eq_ceil _ _ hk, ?_, ?_, ?_⟩
  · exact Nat.le_zero.1 ((pageCount_le_iff 0 k 0 hk).2 (Nat.zero_le _))
  · intro p _
    rw [length_pageSlice]
    exact Nat.min_le_left _ _
  · rw [flatMap_pageSlice_range]
    exact List.take_of_length_le ((pageCount_le_iff _ k _ hk).1 le_rfl)

/-- C5 at seven items in pages of three: the pages are `[1, 2, 3]`, `[4, 5, 6]`
and `[7]`. -/
theorem pages_partition_items_witness :
    1 ≤ 3
      ∧ (List.range (pageCount [1, 2, 3, 4, 5, 6, 7].length 3)).flatMap
          (fun p => pageSlice [1, 2, 3, 4, 5, 6, 7] p 3) = [1, 2, 3, 4, 5, 6, 7] :=
  ⟨by decide, (pages_partition_items [1, 2, 3, 4, 5, 6, 7] 3 (by decide)).2.2.2⟩

/-- C6: for every list, page size `k >= 1` and page index `p`, the page slice
is a list (of length `min k (|items| - p * k)`), and it is empty whenever
`p >= pageCount`, which is to say whenever `p * k >= |items|`; with 25 items
and `k = 10` there are 3 pages, page 0 has 10 items, page 2 has 5 and page 3
has none. -/
theorem page_out_of_range_empty {α : Type u} (items : List α) (k p : Nat) (hk : 1 ≤ k) :
    (pageSlice items p k).length = min k (items.length - p * k)
      ∧ (pageCount items.length k ≤ p ↔ items.length ≤ p * k)
      ∧ (pageCount items.length k ≤ p → pageSlice items p k = [])
      ∧ (items.length = 25 →
          pageCount items.length 10 = 3 ∧ (pageSlice items 0 10).length = 10
            ∧ (pageSlice items 2 10).length = 5 ∧ (pageSlice items 3 10).length = 0) := by
  refine ⟨length_pageSlice _ _ _, pageCount_le_iff _ _ _ hk, ?_, ?_⟩
  · intro h
    have hlen := (pageCount_le_iff _ _ _ hk).1 h
    apply List.eq_nil_of_length_eq_zero
    rw [length_pageSlice]
    omega
  · intro h
    simp only [length_pageSlice, h]
    decide

/-- C6 at the 25 items `0, ..., 24` with page size 10 and page index 3. -/
theorem page_out_of_range_empty_witness :
    1 ≤ 10 ∧ pageCount (List.range 25).length 10 ≤ 3
      ∧ pageSlice (List.range 25) 3 10 = [] :=
  ⟨by decide, by decide,
    (page_out_of_range_empty (List.range 25) 10 3 (by decide)).2.2.1 (by decide)⟩

/-- C10: the render condition of the pagination control,
`results.length > itemsPerPage`, holds exactly when
`pageCount = ceil (|results| / 10) > 1`; the control is suppressed exactly when
`|results| <= 10`, so also for a result list with no items. -/
theorem paginationShown_iff_pageCount_gt_one (results : List User) :
    (paginationShown results = true ↔ 1 < pageCount results.length itemsPerPage)
      ∧ pageCount results.length itemsPerPage
          = ⌈(results.length : ℚ) / (itemsPerPage : ℚ)⌉₊
      ∧ (paginationShown results = false ↔ results.length ≤ 10)
      ∧ paginationShown [] = false := by
  have hk : 0 < itemsPerPage := by decide
  refine ⟨?_, pageCount_eq_ceil _ _ hk, ?_, by decide⟩
  · have h := pageCount_le_iff results.length itemsPerPage 1 hk
    simp only [paginationShown, decide_eq_true_eq, gt_iff_lt]
    omega
  · simp [paginationShown, itemsPerPage]

/-! ## `retryWithBackoff`: lemmas -/

/-- The log of one more failed attempt in front. -/
theorem backoffLog_succ (BaseDelay a n : Nat) :
    backoffLog BaseDelay a (n + 1)
      = Event.invoke :: Event.sleep (BaseDelay * 2 ^ a) :: backoffLog BaseDelay (a + 1) n := by
  simp [backoffLog, List.range'_succ]

/-- The log of `n` failed attempts and a last one holds `n + 1` calls. -/
theorem invocations_backoffLog (BaseDelay a n : Nat) :
    invocations (backoffLog BaseDelay a n) = n + 1 := by
  induction n generalizing a with
  | zero => simp [backoffLog, invocations]
  | succ n ih =>
    have h := ih (a + 1)
    rw [backoffLog_succ]
    simp only [invocations] at h ⊢
    rw [List.count_cons_self, List.count_cons_of_ne (by simp), h]

/-- The waits of the log of `n` failed attempts and a last one. -/
theorem delays_backoffLog (BaseDelay a n : Nat) :
    delays (backoffLog BaseDelay a n) = (List.range' a n).map (fun i => BaseDelay * 2 ^ i) := by
  induction n generalizing a with
  | zero => simp [backoffLog, delays]
  | succ n ih =>
    rw [backoffLog_succ, List.range'_succ]
    simp [delays, ih (a + 1)]

/-- The results of the invocations after the first are those of the operation
started in the state the first one left. -/
theorem outcomeAt_succ {ε α σ : Type u} (fn : Operation ε α σ) (s : σ) (i : Nat) :
    outcomeAt fn s (i + 1) = outcomeAt fn (fn s).2 i := rfl

/-- The loop at an attempt that succeeds. -/
theorem retryLoop_cons_ok {ε α σ : Type u} (fn : Operation ε α σ) (maxRetries BaseDelay : Nat)
    (attempt : Nat) (rest : List Nat) (s : σ) (v : α) (h : (fn s).1 = Except.ok v) :
    retryLoop fn maxRetries BaseDelay (attempt :: rest) s
      = { outcome := Settled.resolved v, state := (fn s).2, log := [Event.invoke] } := by
  rcases hfn : fn s with ⟨r, s1⟩
  rw [hfn] at h
  simp only at h
  subst h
  simp [retryLoop, hfn]

/-- The loop at the last allowed attempt, when it fails. -/
theorem retryLoop_cons_error_last {ε α σ : Type u} (fn : Operation ε α σ)
    (maxRetries BaseDelay : Nat) (attempt : Nat) (rest : List Nat) (s : σ) (e : ε)
    (h : (fn s).1 = Except.error e) (hlast : attempt = maxRetries - 1) :
    retryLoop fn maxRetries BaseDelay (attempt :: rest) s
      = { outcome := Settled.rejected e, state := (fn s).2, log := [Event.invoke] } := by
  rcases hfn : fn s with ⟨r, s1⟩
  rw [hfn] at h
  simp only at h
  subst h
  simp [retryLoop, hfn, hlast]

/-- The loop at an earlier attempt, when it fails. -/
theorem retryLoop_cons_error_next {ε α σ : Type u} (fn : Operation ε α σ)
    (maxRetries BaseDelay : Nat) (attempt : Nat) (rest : List Nat) (s : σ) (e : ε)
    (h : (fn s).1 = Except.error e) (hlast : attempt ≠ maxRetries - 1) :
    retryLoop fn maxRetries BaseDelay (attempt :: rest) s
      = { outcome := (retryLoop fn maxRetries BaseDelay rest (fn s).2).outcome,
          state := (retryLoop fn maxRetries BaseDelay rest (fn s).2).state,
          log := Event.invoke :: Event.sleep (BaseDelay * 2 ^ attempt)
            :: (retryLoop fn maxRetries BaseDelay rest (fn s).2).log } := by
  rcases hfn : fn s with ⟨r, s1⟩
  rw [hfn] at h
  simp only at h
  subst h
  simp [retryLoop, hfn, hlast]

/-- The loop over the attempts `a, ..., a + n - 1`, the last of which is
`maxRetries - 1`, when the first `k < n` invocations fail and the next one
succeeds. -/
theorem retryLoop_succeeds {ε α σ : Type u} (fn : Operation ε α σ) (maxRetries BaseDelay : Nat)
    (v : α) (k : Nat) :
    ∀ (n a : Nat) (s : σ), k < n → a + n = maxRetries →
      (∀ i, i < k → ∃ e, outcomeAt fn s i = Except.error e) →
      outcomeAt fn s k = Except.ok v →
      retryLoop fn maxRetries BaseDelay (List.range' a n) s
        = { outcome := Settled.resolved v, state := stateAfter fn s (k + 1),
            log := backoffLog BaseDelay a k } := by
  induction k with
  | zero =>
    intro n a s hn _ _ hok
    obtain ⟨n, rfl⟩ := Nat.exists_eq_succ_of_ne_zero (Nat.pos_iff_ne_zero.1 hn)
    rw [List.range'_succ, retryLoop_cons_ok fn maxRetries BaseDelay a _ s v hok]
    simp [stateAfter, backoffLog]
  | succ k ih =>
    intro n a s hn han hfail hok
    obtain ⟨n, rfl⟩ := Nat.exists_eq_succ_of_ne_zero (Nat.pos_iff_ne_zero.1 (Nat.zero_lt_of_lt hn))
    obtain ⟨e, he⟩ := hfail 0 (Nat.succ_pos k)
    have hne : a ≠ maxRetries - 1 := by omega
    rw [List.range'_succ, retryLoop_cons_error_next fn maxRetries BaseDelay a _ s e he hne,
      ih n (a + 1) (fn s).2 (by omega) (by omega)
        (fun i hi => hfail (i + 1) (Nat.succ_lt_succ hi)) hok,
      backoffLog_succ]
    rfl

/-- The loop over the attempts `a, ..., a + n - 1`, the last of which is
`maxRetries - 1`, when all `n` invocations fail. -/
theorem retryLoop_exhausted {ε α σ : Type u} (fn : Operation ε α σ) (maxRetries BaseDelay : Nat)
    (n : Nat) :
    ∀ (a : Nat) (s : σ) (e : ε), a + (n + 1) = maxRetries →
      (∀ i, i < n → ∃ e1, outcomeAt fn s i = Except.error e1) →
      outcomeAt fn s n = Except.error e →
      retryLoop fn maxRetries BaseDelay (List.range' a (n + 1)) s
        = { outcome := Settled.rejected e, state := stateAfter fn s (n + 1),
            log := backoffLog BaseDelay a n } := by
  induction n with
  | zero =>
    intro a s e han _ hlast
    rw [List.range'_succ,
      retryLoop_cons_error_last fn maxRetries BaseDelay a _ s e hlast (by omega)]
    simp [stateAfter, backoffLog]
  | succ n ih =>
    intro a s e han hfail hlast
    obtain ⟨e1, he1⟩ := hfail 0 (Nat.succ_pos n)
    have hne : a ≠ maxRetries - 1 := by omega
    rw [List.range'_succ, retryLoop_cons_error_next fn maxRetries BaseDelay a _ s e1 he1 hne,
      ih (a + 1) (fn s).2 e (by omega)
        (fun i hi => hfail (i + 1) (Nat.succ_lt_succ hi)) hlast,
      backoffLog_succ]
    rfl

/-- Either the first `n` invocations all fail, or one of them is the first to
succeed. -/
theorem fails_or_first_success {ε α σ : Type u} (fn : Operation ε α σ) (s : σ) (n : Nat) :
    (∀ i, i < n → ∃ e, outcomeAt fn s i = Except.error e)
      ∨ ∃ k, k < n ∧ (∀ i, i < k → ∃ e, outcomeAt fn s i = Except.error e)
          ∧ ∃ v, outcomeAt fn s k = Except.ok v := by
  induction n with
  | zero => exact Or.inl (fun i hi => absurd hi (Nat.not_lt_zero i))
  | succ n ih =>
    rcases ih with hall | ⟨k, hk, hfail, hok⟩
    · cases hn : outcomeAt fn s n with
      | ok v => exact Or.inr ⟨n, Nat.lt_succ_self n, hall, v, hn⟩
      | error e =>
        refine Or.inl (fun i hi => ?_)
        rcases Nat.lt_succ_iff_lt_or_eq.1 hi with h | h
        · exact hall i h
        · exact ⟨e, h ▸ hn⟩
    · exact Or.inr ⟨k, Nat.lt_succ_of_lt hk, hfail, hok⟩

/-- The log of every run with `maxRetries >= 1`: some number `n` of attempts
between 1 and `maxRetries` was made, the first `n - 1` failed and each was
followed by its wait, and the last was either a success or the last allowed
attempt, with no wait after it. -/
theorem retryWithBackoff_log {ε α σ : Type u} (fn : Operation ε α σ)
    (maxRetries BaseDelay : Nat) (s : σ) (hmax : 1 ≤ maxRetries) :
    ∃ n, 1 ≤ n ∧ n ≤ maxRetries
      ∧ (retryWithBackoff fn maxRetries BaseDelay s).log = backoffLog BaseDelay 0 (n - 1)
      ∧ (∀ i, i < n - 1 → ∃ e, outcomeAt fn s i = Except.error e)
      ∧ (n < maxRetries → ∃ v, outcomeAt fn s (n - 1) = Except.ok v) := by
  rcases fails_or_first_success fn s maxRetries with hall | ⟨k, hk, hfail, v, hok⟩
  · obtain ⟨m, rfl⟩ := Nat.exists_eq_succ_of_ne_zero (Nat.pos_iff_ne_zero.1 hmax)
    obtain ⟨e, he⟩ := hall m (Nat.lt_succ_self m)
    have h := retryLoop_exhausted fn (m + 1) BaseDelay m 0 s e (Nat.zero_add _)
      (fun i hi => hall i (Nat.lt_succ_of_lt hi)) he
    rw [← List.range_eq_range'] at h
    refine ⟨m + 1, Nat.succ_pos m, le_rfl, ?_, ?_, fun hlt => absurd hlt (Nat.lt_irrefl _)⟩
    · simp only [retryWithBackoff, Nat.succ_eq_add_one, h, Nat.add_sub_cancel]
    · intro i hi
      exact hall i (by omega)
  · have h := retryLoop_succeeds fn maxRetries BaseDelay v k maxRetries 0 s hk (Nat.zero_add _)
      hfail hok
    rw [← List.range_eq_range'] at h
    refine ⟨k + 1, Nat.succ_pos k, hk, ?_, by simpa using hfail, fun _ => ⟨v, by simpa using hok⟩⟩
    simp only [retryWithBackoff, h, Nat.add_sub_cancel]


/-! ## `retryWithBackoff`: the claims -/

/-- C1: when `fn` fails on its first `k < maxRetries` invocations and succeeds
with `v` on invocation `k + 1`, `retryWithBackoff` resolves to `v` and invokes
`fn` exactly `k + 1` times: the state is the one invocation `k + 1` left, and
the log is `k` failed attempts with their waits and one last call. -/
theorem retryWithBackoff_resolves_after_failures {ε α σ : Type u} (fn : Operation ε α σ)
    (maxRetries BaseDelay k : Nat) (s : σ) (v : α) (hk : k < maxRetries)
    (hfail : ∀ i, i < k → ∃ e, outcomeAt fn s i = Except.error e)
    (hok : outcomeAt fn s k = Except.ok v) :
    (retryWithBackoff fn maxRetries BaseDelay s).outcome = Settled.resolved v
      ∧ invocations (retryWithBackoff fn maxRetries BaseDelay s).log = k + 1
      ∧ (retryWithBackoff fn maxRetries BaseDelay s).state = stateAfter fn s (k + 1)
      ∧ (retryWithBackoff fn maxRetries BaseDelay s).log = backoffLog BaseDelay 0 k := by
  have h := retryLoop_succeeds fn maxRetries BaseDelay v k maxRetries 0 s hk (Nat.zero_add _)
    hfail hok
  rw [← List.range_eq_range'] at h
  simp only [retryWithBackoff, h, invocations_backoffLog, and_self]

/-- C1 at `flakyOperation` (two failures, then 42) with five allowed attempts:
resolved with 42 after three calls. -/
theorem retryWithBackoff_resolves_after_failures_witness :
    2 < 5 ∧ (retryWithBackoff flakyOperation 5 1000 0).outcome = Settled.resolved 42
      ∧ invocations (retryWithBackoff flakyOperation 5 1000 0).log = 2 + 1
      ∧ (retryWithBackoff flakyOperation 5 1000 0).state = stateAfter flakyOperation 0 (2 + 1)
      ∧ (retryWithBackoff flakyOperation 5 1000 0).log = backoffLog 1000 0 2 :=
  ⟨by decide,
    retryWithBackoff_resolves_after_failures flakyOperation 5 1000 2 0 42 (by decide)
      (fun i hi => ⟨i, by
        have h : i = 0 ∨ i = 1 := by omega
        rcases h with h | h <;> subst h <;> rfl⟩)
      rfl⟩

/-- C2: when `fn` fails on each of its first `maxRetries >= 1` invocations,
invocation `i` (one-based) with the error `e i`, `retryWithBackoff` invokes
`fn` exactly `maxRetries` times and rejects with `e maxRetries`, the error of
the last invocation. -/
theorem retryWithBackoff_rejects_with_last_error {ε α σ : Type u} (fn : Operation ε α σ)
    (maxRetries BaseDelay : Nat) (s : σ) (e : Nat → ε) (hmax : 1 ≤ maxRetries)
    (hfail : ∀ i, i < maxRetries → outcomeAt fn s i = Except.error (e (i + 1))) :
    (retryWithBackoff fn maxRetries BaseDelay s).outcome = Settled.rejected (e maxRetries)
      ∧ invocations (retryWithBackoff fn maxRetries BaseDelay s).log = maxRetries
      ∧ (retryWithBackoff fn maxRetries BaseDelay s).state = stateAfter fn s maxRetries
      ∧ (retryWithBackoff fn maxRetries BaseDelay s).log
          = backoffLog BaseDelay 0 (maxRetries - 1) := by
  obtain ⟨n, rfl⟩ := Nat.exists_eq_succ_of_ne_zero (Nat.pos_iff_ne_zero.1 hmax)
  have h := retryLoop_exhausted fn (n + 1) BaseDelay n 0 s (e (n + 1)) (Nat.zero_add _)
    (fun i hi => ⟨e (i + 1), hfail i (Nat.lt_succ_of_lt hi)⟩) (hfail n (Nat.lt_succ_self n))
  rw [← List.range_eq_range'] at h
  simp only [retryWithBackoff, Nat.succ_eq_add_one, h, invocations_backoffLog,
    Nat.add_sub_cancel, and_self]

/-- C2 at `failingOperation` with three allowed attempts: three calls, rejected
with the error 3 of the third. -/
theorem retryWithBackoff_rejects_with_last_error_witness :
    1 ≤ 3 ∧ (retryWithBackoff failingOperation 3 1000 0).outcome = Settled.rejected 3
      ∧ invocations (retryWithBackoff failingOperation 3 1000 0).log = 3
      ∧ (retryWithBackoff failingOperation 3 1000 0).state = stateAfter failingOperation 0 3
      ∧ (retryWithBackoff failingOperation 3 1000 0).log = backoffLog 1000 0 (3 - 1) :=
  ⟨by decide,
    retryWithBackoff_rejects_with_last_error failingOperation 3 1000 0 (fun i => i) (by decide)
      (fun i hi => by
        have h : i = 0 ∨ i = 1 ∨ i = 2 := by omega
        rcases h with h | h | h <;> subst h <;> rfl)⟩

/-- C4: for every `maxRetries >= 1`, every `BaseDelay` and every `fn`, the run
makes some number `n <= maxRetries` of attempts, the wait after the failed
attempt with zero-based index `i < n - 1` is `BaseDelay * 2 ^ i`, and no wait
follows the last attempt, be it a success or the last allowed one; an
always-failing `fn` incurs exactly the waits `BaseDelay * 2 ^ 0, ...,
BaseDelay * 2 ^ (maxRetries - 2)`, which are 1000, 2000, 4000, 8000 for
`BaseDelay = 1000` and `maxRetries = 5`, and `maxRetries = 1` incurs no wait. -/
theorem retryWithBackoff_delay_schedule {ε α σ : Type u} (fn : Operation ε α σ)
    (maxRetries BaseDelay : Nat) (s : σ) (hmax : 1 ≤ maxRetries) :
    (∃ n, 1 ≤ n ∧ n ≤ maxRetries
        ∧ (retryWithBackoff fn maxRetries BaseDelay s).log = backoffLog BaseDelay 0 (n - 1)
        ∧ delays (retryWithBackoff fn maxRetries BaseDelay s).log
            = (List.range (n - 1)).map (fun i => BaseDelay * 2 ^ i)
        ∧ (∀ i, i < n - 1 → ∃ e, outcomeAt fn s i = Except.error e)
        ∧ (n < maxRetries → ∃ v, outcomeAt fn s (n - 1) = Except.ok v))
      ∧ ((∀ i, i < maxRetries → ∃ e, outcomeAt fn s i = Except.error e) →
          delays (retryWithBackoff fn maxRetries BaseDelay s).log
            = (List.range (maxRetries - 1)).map (fun i => BaseDelay * 2 ^ i))
      ∧ ((∀ i, i < maxRetries → ∃ e, outcomeAt fn s i = Except.error e) →
          maxRetries = 5 → BaseDelay = 1000 →
          delays (retryWithBackoff fn maxRetries BaseDelay s).log = [1000, 2000, 4000, 8000])
      ∧ (maxRetries = 1 → delays (retryWithBackoff fn maxRetries BaseDelay s).log = []) := by
  obtain ⟨n, hn1, hn, hlog, hfail, hok⟩ := retryWithBackoff_log fn maxRetries BaseDelay s hmax
  have hdelays : delays (retryWithBackoff fn maxRetries BaseDelay s).log
      = (List.range (n - 1)).map (fun i => BaseDelay * 2 ^ i) := by
    rw [hlog, delays_backoffLog, List.range_eq_range']
  have hall : (∀ i, i < maxRetries → ∃ e, outcomeAt fn s i = Except.error e) →
      delays (retryWithBackoff fn maxRetries BaseDelay s).log
        = (List.range (maxRetries - 1)).map (fun i => BaseDelay * 2 ^ i) := by
    intro h
    have hnm : n = maxRetries := by
      rcases Nat.lt_or_ge n maxRetries with hlt | hge
      · obtain ⟨v, hv⟩ := hok hlt
        obtain ⟨e, he⟩ := h (n - 1) (by omega)
        rw [hv] at he
        cases he
      · exact Nat.le_antisymm hn hge
    rw [hdelays, hnm]
  refine ⟨⟨n, hn1, hn, hlog, hdelays, hfail, hok⟩, hall, ?_, ?_⟩
  · intro h h5 hb
    rw [hall h, h5, hb]
    decide
  · intro h1
    have hn0 : n - 1 = 0 := by omega
    rw [hdelays, hn0]
    rfl

/-- C4 at `failingOperation` with the defaults, five attempts and a base delay
of 1000: the waits are 1000, 2000, 4000 and 8000. -/
theorem retryWithBackoff_delay_schedule_witness :
    1 ≤ 5 ∧ delays (retryWithBackoff failingOperation 5 1000 0).log = [1000, 2000, 4000, 8000] :=
  ⟨by decide,
    (retryWithBackoff_delay_schedule failingOperation 5 1000 0 (by decide)).2.2.1
      (fun i hi => ⟨i + 1, by
        have h : i = 0 ∨ i = 1 ∨ i = 2 ∨ i = 3 ∨ i = 4 := by omega
        rcases h with h | h | h | h | h <;> subst h <;> rfl⟩)
      rfl rfl⟩

/-! ## `fetchUsers`: lemmas -/

/-- A successful status passes the classification of lines 39-45. -/
theorem checkStatus_of_ok (res : Response) (hok : res.ok = true) :
    checkStatus res.ok res.status = Except.ok () := by
  have h : 200 ≤ res.status ∧ res.status ≤ 299 := by
    simpa [Response.ok] using hok
  have h404 : res.status ≠ 404 := by omega
  have h500 : res.status ≠ 500 := by omega
  simp [checkStatus, hok, h404, h500]

/-- The message of line 40 is neither of the messages of lines 42 and 44. -/
theorem httpError_ne (status : Nat) :
    "HTTP error! status: " ++ toString status ≠ "User not found"
      ∧ "HTTP error! status: " ++ toString status ≠ "Server error" := by
  constructor <;> intro h <;>
    · have h2 := congrArg (fun t => t.data.head?) h
      simp [String.data_append] at h2

/-- Whatever the network does, the search as wired issues one request and
resolves: `fetchUsers` never rejects, so the first attempt counts as a
success. -/
theorem search_eq (network : Nat → FetchResult) (w : World) :
    search network w
      = { outcome := Settled.resolved (),
          state := { app := fetchUsers (network w.requests) w.app, requests := w.requests + 1 },
          log := [Event.invoke] } := rfl

/-- A run of enabled actions from a reachable state ends in a reachable
state. -/
theorem reachable_of_runActions (actions : List Action) :
    ∀ (st st1 : Sys), Reachable st → runActions st actions = some st1 → Reachable st1 := by
  induction actions with
  | nil =>
    intro st st1 hst h
    simp only [runActions, Option.some.injEq] at h
    exact h ▸ hst
  | cons a rest ih =>
    intro st st1 hst h
    by_cases ha : enabled st a = true
    · simp only [runActions, ha, if_true] at h
      exact ih (step st a) st1 (Reachable.step st a hst ha) h
    · simp [runActions, ha] at h

/-- A search that nothing interrupts leaves a valid page index: the index is
reset to 0 when the search begins. -/
theorem fetchUsers_pageValid (reply : FetchResult) (s : AppState) :
    pageValid (fetchUsers reply s) := by
  have hzero : ∀ t : AppState, t.currentPage = 0 → pageValid t := by
    intro t ht
    unfold pageValid
    rcases Nat.eq_zero_or_pos t.results.length with h | h
    · exact Or.inr ⟨List.eq_nil_of_length_eq_zero h, ht⟩
    · left
      rw [ht]
      by_contra hc
      have h0 := (pageCount_le_iff t.results.length itemsPerPage 0 (by decide)).1
        (Nat.le_of_not_lt hc)
      omega
  apply hzero
  unfold fetchUsers fetchUsersSettle fetchUsersBegin
  cases fetchUsersTry reply <;> rfl

/-! ## `fetchUsers`: the claims -/

/-- C8 as stated fails on the code in two ways. A response with status 200
whose body parses to `null` ends with status error, not success, and keeps the
previous results: reading `items` of `null` at line 48 throws, and the `catch`
takes over. And with two searches in flight, one failing and the other then
succeeding, the component ends with status success and a non-null error: the
error is cleared at line 36, before the request is awaited, and not on the
success path. -/
theorem fetchUsers_success_counterexample :
    (nullResponse.ok = true ∧ nullResponse.body = Except.ok Payload.null
        ∧ (fetchUsers (FetchResult.response nullResponse) earlierState).status = Status.error
        ∧ (fetchUsers (FetchResult.response nullResponse) earlierState).status ≠ Status.success
        ∧ (fetchUsers (FetchResult.response nullResponse) earlierState).error ≠ none
        ∧ (fetchUsers (FetchResult.response nullResponse) earlierState).results
            = sampleUsers 11)
      ∧ ∃ st, runActions Sys.initial overlappingTrace = some st ∧ Reachable st
          ∧ st.app.status = Status.success ∧ st.app.results = sampleUsers 3
          ∧ st.app.error = some "HTTP error! status: 500" ∧ st.app.error ≠ none := by
  have h : runActions Sys.initial overlappingTrace
      = some { app := { query := "", status := Status.success,
                        error := some "HTTP error! status: 500",
                        results := sampleUsers 3, currentPage := 0 }, pending := 0 } := by
    decide
  exact ⟨⟨by decide, rfl, by decide, by decide, by decide, by decide⟩,
    _, h, reachable_of_runActions _ _ _ Reachable.init h, rfl, rfl, rfl, by decide⟩

/-- C8, amended: for every successful response (`res.ok`) whose payload parses
to a value other than `null`, with its `items` property absent or an array of
users, the completion of `fetchUsers` (lines 47-50) sets status success and
results equal to `data.items`, or to the empty list when the property is
absent, whatever the previous results were, and leaves the error and the page
index as they are at that moment; after a call that nothing interrupts these
are null and 0, as set at lines 34-36. A payload with zero items yields the
success state with empty results. -/
theorem fetchUsers_success_of_object_payload (s : AppState) (res : Response)
    (items : Option (List User)) (hok : res.ok = true)
    (hbody : res.body = Except.ok (Payload.object items)) :
    fetchUsersSettle (FetchResult.response res) s
        = { query := s.query, status := Status.success, error := s.error,
            results := items.getD [], currentPage := s.currentPage }
      ∧ fetchUsers (FetchResult.response res) s
        = { query := s.query, status := Status.success, error := none,
            results := items.getD [], currentPage := 0 }
      ∧ (∀ users, items = some users →
          (fetchUsersSettle (FetchResult.response res) s).results = users
            ∧ (fetchUsers (FetchResult.response res) s).results = users)
      ∧ (items = none →
          (fetchUsersSettle (FetchResult.response res) s).results = []
            ∧ (fetchUsers (FetchResult.response res) s).results = [])
      ∧ (items = some [] →
          (fetchUsers (FetchResult.response res) s).status = Status.success
            ∧ (fetchUsers (FetchResult.response res) s).results = []) := by
  have hs : ∀ t : AppState, fetchUsersSettle (FetchResult.response res) t
      = { query := t.query, status := Status.success, error := t.error,
          results := items.getD [], currentPage := t.currentPage } := by
    intro t
    simp [fetchUsersSettle, fetchUsersTry, checkStatus_of_ok res hok, hbody]
  have h : fetchUsers (FetchResult.response res) s
      = { query := s.query, status := Status.success, error := none,
          results := items.getD [], currentPage := 0 } := by
    rw [fetchUsers, hs]
    rfl
  refine ⟨hs s, h, ?_, ?_, ?_⟩
  · intro users hi
    rw [h, hs, hi]
    exact ⟨rfl, rfl⟩
  · intro hi
    rw [h, hs, hi]
    exact ⟨rfl, rfl⟩
  · intro hi
    rw [h, hi]
    exact ⟨rfl, rfl⟩

/-- C8, amended, at a 200 response with three users, after an earlier search
that left 11 results and the second page selected: the three users replace
the 11. -/
theorem fetchUsers_success_of_object_payload_witness :
    sampleResponse.ok = true
      ∧ sampleResponse.body = Except.ok (Payload.object (some (sampleUsers 3)))
      ∧ fetchUsers (FetchResult.response sampleResponse) earlierState
          = { query := "octo", status := Status.success, error := none,
              results := sampleUsers 3, currentPage := 0 } :=
  ⟨by decide, rfl,
    (fetchUsers_success_of_object_payload earlierState sampleResponse (some (sampleUsers 3))
      (by decide) rfl).2.1⟩

/-- C9: for every response with a non-success status (`res.ok` false),
`fetchUsers` ends with status error and the error message
`HTTP error! status: ` followed by the status code, also for the statuses 404
and 500; and whenever the `ok` flag agrees with the status (`ok` iff
`200 <= status <= 299`), the classification of lines 39-45 throws neither
`User not found` nor `Server error`. -/
theorem fetchUsers_http_error (s : AppState) (res : Response) (hnot : res.ok = false) :
    fetchUsers (FetchResult.response res) s
        = { query := s.query, status := Status.error,
            error := some ("HTTP error! status: " ++ toString res.status),
            results := s.results, currentPage := 0 }
      ∧ (res.status = 404 →
          (fetchUsers (FetchResult.response res) s).error = some "HTTP error! status: 404")
      ∧ (res.status = 500 →
          (fetchUsers (FetchResult.response res) s).error = some "HTTP error! status: 500")
      ∧ (∀ (ok : Bool) (status : Nat), (ok = true ↔ 200 ≤ status ∧ status ≤ 299) →
          checkStatus ok status ≠ Except.error "User not found"
            ∧ checkStatus ok status ≠ Except.error "Server error") := by
  have h : fetchUsers (FetchResult.response res) s
      = { query := s.query, status := Status.error,
          error := some ("HTTP error! status: " ++ toString res.status),
          results := s.results, currentPage := 0 } := by
    simp [fetchUsers, fetchUsersSettle, fetchUsersTry, fetchUsersBegin, checkStatus, hnot]
  refine ⟨h, ?_, ?_, ?_⟩
  · intro h404
    rw [h, h404]
    rfl
  · intro h500
    rw [h, h500]
    rfl
  · intro ok status hagree
    cases ok with
    | false =>
      have hne := httpError_ne status
      constructor <;> intro hc
      · exact hne.1 (by simpa [checkStatus] using hc)
      · exact hne.2 (by simpa [checkStatus] using hc)
    | true =>
      have hr := hagree.1 rfl
      have h404 : status ≠ 404 := by omega
      have h500 : status ≠ 500 := by omega
      simp [checkStatus, h404, h500]

/-- C9 at a 404 response: the message is `HTTP error! status: 404`, not
`User not found`. -/
theorem fetchUsers_http_error_witness :
    notFoundResponse.ok = false
      ∧ fetchUsers (FetchResult.response notFoundResponse) earlierState
          = { query := "octo", status := Status.error,
              error := some "HTTP error! status: 404", results := sampleUsers 11,
              currentPage := 0 } :=
  ⟨by decide, (fetchUsers_http_error earlierState notFoundResponse (by decide)).1⟩

/-- C3 on the code: on a network where every request gets the response 500, the
search as wired, `retryWithBackoff (() => fetchUsers (query))` with the default
`maxRetries = 5`, issues the request once, not five times; the wrapper
resolves instead of rejecting, after a single call and no wait, and the
component shows the error of that only attempt. -/
theorem search_failing_issues_one_request :
    (search failingNetwork { app := AppState.initial, requests := 0 }).state.requests = 1
      ∧ (search failingNetwork { app := AppState.initial, requests := 0 }).state.requests ≠ 5
      ∧ (search failingNetwork { app := AppState.initial, requests := 0 }).outcome
          = Settled.resolved ()
      ∧ (search failingNetwork { app := AppState.initial, requests := 0 }).log = [Event.invoke]
      ∧ (search failingNetwork { app := AppState.initial, requests := 0 }).state.app.status
          = Status.error
      ∧ (search failingNetwork { app := AppState.initial, requests := 0 }).state.app.error
          = some "HTTP error! status: 500" := by
  decide

/-- C7 on the code: the state after `staleSelectionTrace` is reachable, and
its page index is not valid: the search succeeded with one result, so there is
one page, but the page index is 1, selected while the search was in flight,
and the rendered slice is empty. -/
theorem stale_selection_breaks_pageValid :
    ∃ st, runActions Sys.initial staleSelectionTrace = some st ∧ Reachable st
      ∧ st.app.status = Status.success ∧ st.app.results = sampleUsers 1
      ∧ pageCount st.app.results.length itemsPerPage = 1 ∧ st.app.currentPage = 1
      ∧ ¬ pageValid st.app ∧ currentResults st.app = [] := by
  have h : runActions Sys.initial staleSelectionTrace
      = some { app := { query := "", status := Status.success, error := none,
                        results := sampleUsers 1, currentPage := 1 }, pending := 0 } := by
    decide
  exact ⟨_, h, reachable_of_runActions _ _ _ Reachable.init h, rfl, rfl, by decide, rfl,
    by decide, by decide⟩

end GithubSearch
